import Mathlib

/-
Verification of the vector-store / knowledge-base core of the repository.

The Rust source is shallowly embedded: SQLite tables become lists of row
structures, a transaction becomes pure state passing where a failed statement
returns the caller the untouched pre-transaction state (rusqlite rolls a
dropped transaction back), and 32-bit floats are handled at the level of their
bit patterns (naturals below 2^32), which is exact for every value the claims
quantify over.
-/

/-! ## Embedding wire format (`SqliteStore::serialize_embedding`,
`SqliteStore::get_document_embeddings`) -/

/-- The four little-endian bytes of one 32-bit word, least significant first:
the layout `zerocopy::IntoBytes::as_bytes` produces for one `f32` of the
serialized vector. -/
def f32ToLeBytes (w : Nat) : List Nat :=
  [w % 256, w / 256 % 256, w / 65536 % 256, w / 16777216 % 256]

/-- `f32::from_le_bytes` on one 4-byte chunk, at the level of bit patterns. -/
def f32FromLeBytes (b0 b1 b2 b3 : Nat) : Nat :=
  b0 + 256 * b1 + 65536 * b2 + 16777216 * b3

/-- `SqliteStore::serialize_embedding` followed by `as_bytes`: each element of
the vector (modelled by its `f32` bit pattern, exact for every value that is
exactly representable in 32-bit float) contributes its four little-endian
bytes, concatenated in vector order. -/
def embedding_blob (v : List Nat) : List Nat :=
  (v.map f32ToLeBytes).flatten

/-- `bytes.chunks(4)` from `get_document_embeddings`: full 4-byte chunks, with
a trailing shorter chunk when the length is not a multiple of four. -/
def chunks4 : List Nat → List (List Nat)
  | b0 :: b1 :: b2 :: b3 :: rest => [b0, b1, b2, b3] :: chunks4 rest
  | [] => []
  | rest => [rest]

/-- The read path of `get_document_embeddings`: split the blob into 4-byte
chunks, decode each with `f32::from_le_bytes`, widen to `f64` (exact, hence
invisible at bit-pattern level). A chunk that is not 4 bytes long makes the
`try_into().unwrap()` of the source fail, modelled as `none`. -/
def deserialize_blob (bs : List Nat) : Option (List Nat) :=
  (chunks4 bs).mapM fun c =>
    match c with
    | [b0, b1, b2, b3] => some (f32FromLeBytes b0 b1 b2 b3)
    | _ => none

/-! ## `Source` and `ChannelType` (knowledge.rs / knowledge/types.rs) -/

/-- `char::to_lowercase` restricted to the ASCII strings these enums encode
to; applied by both `from_str` implementations before matching. -/
def strToLower (s : String) : String :=
  ⟨s.data.map Char.toLower⟩

inductive Source where
  | Discord
  | Telegram
  | Github
  | X
  | Twitter
deriving DecidableEq

def Source.as_str : Source → String
  | .Discord => "discord"
  | .Telegram => "telegram"
  | .Github => "github"
  | .X => "x"
  | .Twitter => "twitter"

def Source.from_str (s : String) : Option Source :=
  match strToLower s with
  | "discord" => some .Discord
  | "telegram" => some .Telegram
  | "github" => some .Github
  | "x" => some .X
  | "twitter" => some .Twitter
  | _ => none

inductive ChannelType where
  | DirectMessage
  | Text
  | Voice
  | Thread
deriving DecidableEq

def ChannelType.as_str : ChannelType → String
  | .DirectMessage => "direct_message"
  | .Text => "text"
  | .Voice => "voice"
  | .Thread => "thread"

def ChannelType.from_str (s : String) : Option ChannelType :=
  match strToLower s with
  | "direct_message" => some .DirectMessage
  | "text" => some .Text
  | "voice" => some .Voice
  | "thread" => some .Thread
  | _ => none

/-! ## `SqliteStore` (stores/sqlite.rs): documents table + `vec0` ANN table -/

structure DocumentRow where
  rowid : Nat
  doc_id : String
  document : String
deriving DecidableEq

structure EmbeddingRow where
  rowid : Nat
  blob : List Nat
deriving DecidableEq

/-- The storage state of one `SqliteStore`: the `documents` table, the `vec0`
virtual table `embeddings`, the AUTOINCREMENT counter of `documents` (SQLite
hands out strictly increasing rowids, never reusing one), and the vector
width the ANN table was declared with. -/
structure DB where
  documents : List DocumentRow
  embeddings : List EmbeddingRow
  next_rowid : Nat
  ann_dim : Nat
deriving DecidableEq

inductive SqlErr where
  | dimensionMismatch
  | duplicateRowid
deriving DecidableEq

/-- The database state `SqliteStore::new` leaves behind: both tables empty,
rowids starting at 1, and the ANN table declared as
`vec0(embedding float[1536])`. -/
def SqliteStore.new : DB :=
  { documents := [], embeddings := [], next_rowid := 1, ann_dim := 1536 }

/-- The DDL facts of the migration run by `SqliteStore::new`: the name of the
virtual ANN table, the vector width in its declaration, and the name of the
relational table it runs parallel to. `new` receives only a path — no
embedding model. -/
structure InitDdl where
  ann_table_name : String
  ann_width : Nat
  relational_table_name : String
deriving DecidableEq

def SqliteStore.new_ddl : InitDdl :=
  { ann_table_name := "embeddings", ann_width := 1536,
    relational_table_name := "documents" }

/-- `INSERT OR REPLACE INTO documents (doc_id, document)`: on a `doc_id`
conflict SQLite deletes the old row and inserts a fresh one; since no explicit
id is supplied the fresh row gets a new AUTOINCREMENT id, and
`last_insert_rowid` (the second component) names it. Nothing cascades to the
`embeddings` table. -/
def insertOrReplaceDocument (db : DB) (docId doc : String) : DB × Nat :=
  let rid := db.next_rowid
  ({ db with
      documents := db.documents.filter (fun r => r.doc_id != docId) ++ [⟨rid, docId, doc⟩],
      next_rowid := rid + 1 },
   rid)

/-- `INSERT INTO embeddings (rowid, embedding)`: `vec0` rejects a vector whose
byte length differs from the declared width, and a rowid that is already
present (rowid is the primary key of a virtual table). -/
def insertEmbeddingRow (db : DB) (rid : Nat) (blob : List Nat) : Except SqlErr DB :=
  if blob.length ≠ 4 * db.ann_dim then .error .dimensionMismatch
  else if db.embeddings.any (fun e => e.rowid == rid) then .error .duplicateRowid
  else .ok { db with embeddings := db.embeddings ++ [⟨rid, blob⟩] }

/-- One `rig::embeddings::DocumentEmbeddings` value: declared id, JSON-encoded
document, and the embedding vectors of the document, each given by the `f32`
bit patterns of its elements. -/
structure DocumentEmbeddings where
  id : String
  document : String
  embeddings : List (List Nat)
deriving DecidableEq

/-- The inner embedding loop of `add_documents` for one document: every
embedding is serialized and inserted keyed to the same `last_insert_rowid`. -/
def insertDocEmbeddings (db : DB) (rid : Nat) : List (List Nat) → Except SqlErr DB
  | [] => .ok db
  | v :: rest =>
    match insertEmbeddingRow db rid (embedding_blob v) with
    | .error e => .error e
    | .ok db1 => insertDocEmbeddings db1 rid rest

/-- The statement sequence inside the transaction of
`SqliteStore::add_documents`. -/
def addDocumentsTx (db : DB) : List DocumentEmbeddings → Except SqlErr DB
  | [] => .ok db
  | doc :: rest =>
    let inserted := insertOrReplaceDocument db doc.id doc.document
    match insertDocEmbeddings inserted.1 inserted.2 doc.embeddings with
    | .error e => .error e
    | .ok db2 => addDocumentsTx db2 rest

/-- `SqliteStore::add_documents`: one transaction around the whole batch; a
failed statement makes the closure return early, dropping the transaction,
which rolls everything back — the pre-call state is kept. -/
def add_documents (db : DB) (docs : List DocumentEmbeddings) :
    Except SqlErr Unit × DB :=
  match addDocumentsTx db docs with
  | .ok db1 => (.ok (), db1)
  | .error e => (.error e, db)

/-! ## `SqliteVectorIndex::top_n` read path (stores/sqlite.rs) -/

inductive ReadErr where
  | deserialization
deriving DecidableEq

/-- `SqliteStore::get_document`: look the row up by `doc_id`. A missing row is
`ok none`; a row whose stored JSON does not decode into the target type is an
error (`serde_json::from_str` mapped into `VectorStoreError` and raised with
`?`). `decode` stands for `serde_json::from_str::<T>`. -/
def get_document {T : Type} (db : DB) (decode : String → Option T) (id : String) :
    Except ReadErr (Option T) :=
  match db.documents.find? (fun r => r.doc_id == id) with
  | none => .ok none
  | some r =>
    match decode r.document with
    | none => .error .deserialization
    | some t => .ok (some t)

/-- The collection loop of `SqliteVectorIndex::top_n` after the KNN query.
The ANN MATCH itself runs inside the `vec0` extension over floating-point
distances and is kept abstract: `rows` ranges over the `(doc_id, distance)`
pairs it returned, with distances carried opaquely as integers. Each row is
resolved with `get_document`, whose error aborts the whole call through `?`;
a row whose document is gone is silently dropped by the `if let Some`. -/
def top_n {T : Type} (db : DB) (decode : String → Option T) :
    List (String × Int) → Except ReadErr (List (Int × String × T))
  | [] => .ok []
  | (id, dist) :: rest =>
    match get_document db decode id with
    | .error e => .error e
    | .ok none => top_n db decode rest
    | .ok (some t) =>
      match top_n db decode rest with
      | .error e => .error e
      | .ok l => .ok ((dist, id, t) :: l)

/-! ## Concrete stores and batches used by the closed theorems

The migration constant 1536 only fixes the length of every vector; none of
the claims depends on its value, so the closed scenarios run on a store state
whose ANN table was declared with width 2, keeping the evaluated lists short
enough for the kernel. -/

def demoStore : DB :=
  { documents := [], embeddings := [], next_rowid := 1, ann_dim := 2 }

def goodEmbedding : List Nat := [1, 2]

def badEmbedding : List Nat := [3]

def demoBatchC1 : List DocumentEmbeddings :=
  [⟨"doc-a", "alpha", [goodEmbedding]⟩, ⟨"doc-b", "beta", [badEmbedding]⟩]

def demoDocA : DocumentEmbeddings := ⟨"doc-r", "first version", [[5, 6]]⟩

def demoDocB : DocumentEmbeddings := ⟨"doc-r", "second version", [[7, 8]]⟩

def dbAfterFirst : DB := (add_documents demoStore [demoDocA]).2

def dbAfterSecond : DB := (add_documents dbAfterFirst [demoDocB]).2

/-- Stands for `serde_json::from_str::<u64>` over the two concrete stored
documents of the `top_n` scenarios. -/
def demoDecode (s : String) : Option Nat :=
  if s = "7" then some 7 else none

def dbC6 : DB :=
  { documents := [⟨1, "doc-ok", "7"⟩, ⟨2, "doc-bad", "not a number"⟩],
    embeddings := [], next_rowid := 3, ann_dim := 1536 }

def dbC6b : DB :=
  { documents := [⟨1, "present", "7"⟩], embeddings := [], next_rowid := 2,
    ann_dim := 1536 }

/-! ## `KnowledgeBase` (knowledge.rs; dimension tables, message and document
vector stores sharing one connection) -/

structure AccountRow where
  id : Nat
  name : String
  source_id : String
  source : String
  created_at : Nat
  updated_at : Nat
deriving DecidableEq

structure ChannelRow where
  id : Nat
  channel_id : String
  channel_type : String
  source : String
  name : Option String
  created_at : Nat
  updated_at : Nat
deriving DecidableEq

/-- One row of the `messages` vector-store table (schema from the
`SqliteVectorStoreTable` impl of `Message`), together with the implicit
SQLite rowid that keys its embedding rows. -/
structure MessageRow where
  rowid : Nat
  id : String
  source : String
  source_id : String
  channel_type : String
  channel_id : String
  account_id : String
  role : String
  content : String
  created_at : Nat
deriving DecidableEq

/-- One row of the `documents` vector-store table (schema from the
`SqliteVectorStoreTable` impl of `Document`). -/
structure DocRow where
  rowid : Nat
  id : String
  source_id : String
  content : String
  created_at : Nat
deriving DecidableEq

/-- The storage state owned by one `KnowledgeBase`: the `accounts` and
`channels` dimension tables (with `source_id` resp. `channel_id` UNIQUE),
the two vector-store table pairs, the AUTOINCREMENT counters, and the vector
width both ANN tables were declared with
(`SqliteVectorStore::new(conn, model)` uses `model.dimensions()`). -/
structure KB where
  accounts : List AccountRow
  channels : List ChannelRow
  messages : List MessageRow
  message_embeddings : List EmbeddingRow
  documents : List DocRow
  document_embeddings : List EmbeddingRow
  next_account_id : Nat
  next_channel_id : Nat
  next_message_rowid : Nat
  next_document_rowid : Nat
  ann_dim : Nat
deriving DecidableEq

/-- The Rust `Message` struct of knowledge.rs (the normalized inbound
message), timestamps as naturals. -/
structure Message where
  id : String
  source : Source
  source_id : String
  channel_type : ChannelType
  channel_id : String
  account_id : String
  role : String
  content : String
  created_at : Nat
deriving DecidableEq

/-- The column projection of `Message` (its `column_values`), placed under a
given internal rowid. -/
def msgRow (rid : Nat) (m : Message) : MessageRow :=
  ⟨rid, m.id, m.source.as_str, m.source_id, m.channel_type.as_str,
   m.channel_id, m.account_id, m.role, m.content, m.created_at⟩

/-- The Rust `Document` struct of knowledge.rs. -/
structure Document where
  id : String
  source_id : String
  content : String
  created_at : Nat
deriving DecidableEq

def docRow (rid : Nat) (d : Document) : DocRow :=
  ⟨rid, d.id, d.source_id, d.content, d.created_at⟩

inductive KBErr where
  | modelError (e : String)
  | dbError (e : SqlErr)
deriving DecidableEq

/-- `KnowledgeBase::create_user` (knowledge/store.rs): `INSERT INTO accounts
... ON CONFLICT(source_id) DO UPDATE SET updated_at = CURRENT_TIMESTAMP
RETURNING id`; `accounts.source_id` is declared UNIQUE, so at most one row
can conflict. `now` stands for CURRENT_TIMESTAMP. -/
def create_user (kb : KB) (name source source_id : String) (now : Nat) : Nat × KB :=
  match kb.accounts.find? (fun r => r.source_id == source_id) with
  | some row =>
    (row.id,
     { kb with accounts := kb.accounts.map (fun r =>
         if r.source_id == source_id then { r with updated_at := now } else r) })
  | none =>
    (kb.next_account_id,
     { kb with
        accounts := kb.accounts
          ++ [⟨kb.next_account_id, name, source_id, source, now, now⟩],
        next_account_id := kb.next_account_id + 1 })

/-- The channel upsert inside `KnowledgeBase::create_message` (knowledge.rs):
`INSERT INTO channels (channel_id, channel_type, source, name, ...) VALUES
(?, ?, ?, NULL, now, now) ON CONFLICT (channel_id) DO UPDATE SET updated_at =
now`; `channels.channel_id` is declared UNIQUE. -/
def upsert_channel (kb : KB) (cid ctype src : String) (now : Nat) : KB :=
  if kb.channels.any (fun c => c.channel_id == cid) then
    { kb with channels := kb.channels.map (fun c =>
        if c.channel_id == cid then { c with updated_at := now } else c) }
  else
    { kb with
        channels := kb.channels
          ++ [⟨kb.next_channel_id, cid, ctype, src, none, now, now⟩],
        next_channel_id := kb.next_channel_id + 1 }

/-- ANN inserts of the message store: one row per embedding, all keyed to the
same numeric row id; the `vec0` table rejects a vector of the wrong width. -/
def insert_message_embeddings (kb : KB) (rid : Nat) :
    List (List Nat) → Except SqlErr KB
  | [] => .ok kb
  | v :: rest =>
    if (embedding_blob v).length ≠ 4 * kb.ann_dim then .error .dimensionMismatch
    else insert_message_embeddings
      { kb with message_embeddings := kb.message_embeddings ++ [⟨rid, embedding_blob v⟩] }
      rid rest

/-- Modelled from the spec: the body of `SqliteVectorStore::add_rows_with_txn`
is code of this repository that is not under src (knowledge.rs only calls
it). Spec 4.2 and 3: within the caller-supplied transaction, upsert the
record relational row by declared `id` (insert-or-replace), obtain the
internal numeric row id, then insert one ANN row per embedding keyed to that
numeric id; on replacement the prior column values are fully replaced and the
embeddings re-inserted, not merged; returns the last written numeric row
id. -/
def add_rows_with_txn (kb : KB) (msg : Message) (embs : List (List Nat)) :
    Except SqlErr (Nat × KB) :=
  let oldRowids := (kb.messages.filter (fun r => r.id == msg.id)).map (fun r => r.rowid)
  let rid := kb.next_message_rowid
  let kb1 := { kb with
      messages := kb.messages.filter (fun r => r.id != msg.id) ++ [msgRow rid msg],
      message_embeddings :=
        kb.message_embeddings.filter (fun e => !(oldRowids.contains e.rowid)),
      next_message_rowid := rid + 1 }
  match insert_message_embeddings kb1 rid embs with
  | .error e => .error e
  | .ok kb2 => .ok (rid, kb2)

/-- `KnowledgeBase::create_message` (knowledge.rs): the embeddings are built
first — the model call, whose outcome is the `embed` argument — and only
then does one transaction upsert the channel row and write the message row
plus embeddings through `add_rows_with_txn`; any failure inside the
transaction rolls the whole transaction back. -/
def create_message (kb : KB) (msg : Message)
    (embed : Except String (List (List Nat))) (now : Nat) : Except KBErr Nat × KB :=
  match embed with
  | .error e => (.error (.modelError e), kb)
  | .ok embs =>
    let kb1 := upsert_channel kb msg.channel_id msg.channel_type.as_str msg.source.as_str now
    match add_rows_with_txn kb1 msg embs with
    | .ok r => (.ok r.1, r.2)
    | .error e => (.error (.dbError e), kb)

/-- ANN inserts of the document store, mirroring the message store. -/
def insert_document_embeddings (kb : KB) (rid : Nat) :
    List (List Nat) → Except SqlErr KB
  | [] => .ok kb
  | v :: rest =>
    if (embedding_blob v).length ≠ 4 * kb.ann_dim then .error .dimensionMismatch
    else insert_document_embeddings
      { kb with document_embeddings := kb.document_embeddings ++ [⟨rid, embedding_blob v⟩] }
      rid rest

/-- Modelled from the spec: `SqliteVectorStore::add_rows` over the document
store (same missing vector-store code), one record at a time — upsert by
declared `id`, then the ANN rows of its embeddings. -/
def add_document_rows_tx (kb : KB) :
    List (Document × List (List Nat)) → Except SqlErr KB
  | [] => .ok kb
  | (d, embs) :: rest =>
    let oldRowids := (kb.documents.filter (fun r => r.id == d.id)).map (fun r => r.rowid)
    let rid := kb.next_document_rowid
    let kb1 := { kb with
        documents := kb.documents.filter (fun r => r.id != d.id) ++ [docRow rid d],
        document_embeddings :=
          kb.document_embeddings.filter (fun e => !(oldRowids.contains e.rowid)),
        next_document_rowid := rid + 1 }
    match insert_document_embeddings kb1 rid embs with
    | .error e => .error e
    | .ok kb2 => add_document_rows_tx kb2 rest

/-- `KnowledgeBase::add_documents` (knowledge.rs / knowledge/store.rs): the
batch is embedded first — the model call, whose outcome is the `embed`
argument — and only afterwards does the document store write anything. -/
def kb_add_documents (kb : KB)
    (embed : Except String (List (Document × List (List Nat)))) :
    Except KBErr Unit × KB :=
  match embed with
  | .error e => (.error (.modelError e), kb)
  | .ok pairs =>
    match add_document_rows_tx kb pairs with
    | .ok kb1 => (.ok (), kb1)
    | .error e => (.error (.dbError e), kb)

/-- The row order produced by `ORDER BY created_at DESC`: most recent
first. -/
def recentFirst (a b : MessageRow) : Prop :=
  b.created_at ≤ a.created_at

instance : DecidableRel recentFirst :=
  fun a b => Nat.decLe b.created_at a.created_at

instance : IsTotal MessageRow recentFirst :=
  ⟨fun a b => Nat.le_total b.created_at a.created_at⟩

instance : IsTrans MessageRow recentFirst :=
  ⟨fun _ _ _ hab hbc => Nat.le_trans hbc hab⟩

/-- `KnowledgeBase::channel_messages`: `SELECT source_id, content FROM
messages WHERE channel_id = ? ORDER BY created_at DESC LIMIT ?`. -/
def channel_messages (kb : KB) (cid : String) (limit : Nat) : List (String × String) :=
  ((List.insertionSort recentFirst
      (kb.messages.filter (fun r => r.channel_id == cid))).take limit).map
    (fun r => (r.source_id, r.content))

/-! ## Concrete knowledge-base states for the closed theorems -/

def kbEmpty : KB :=
  { accounts := [], channels := [], messages := [], message_embeddings := [],
    documents := [], document_embeddings := [], next_account_id := 1,
    next_channel_id := 1, next_message_rowid := 1, next_document_rowid := 1,
    ann_dim := 2 }

def demoMessage1 : Message :=
  ⟨"msg-1", .Discord, "user-1", .Text, "chan-1", "acct-1", "user", "hello", 1⟩

def demoMessage2 : Message :=
  ⟨"msg-2", .Discord, "user-2", .Text, "chan-1", "acct-1", "user", "there", 2⟩

def demoMsgRow (i : Nat) : MessageRow :=
  ⟨i, "m" ++ toString i, "discord", "user-" ++ toString i, "text", "chan-x",
   "acct-1", "user", "message " ++ toString i, i⟩

/-- Fifteen messages in channel `chan-x`, inserted with strictly increasing
timestamps 1..15. -/
def demo15 : KB :=
  { kbEmpty with messages := (List.range 15).map (fun i => demoMsgRow (i + 1)) }

/-! ## Helper lemmas -/

theorem f32ToLeBytes_roundtrip (w : Nat) (h : w < 2 ^ 32) :
    f32FromLeBytes (w % 256) (w / 256 % 256) (w / 65536 % 256) (w / 16777216 % 256) = w := by
  unfold f32FromLeBytes
  omega

theorem chunks4_cons_quad (a b c d : Nat) (rest : List Nat) :
    chunks4 (a :: b :: c :: d :: rest) = [a, b, c, d] :: chunks4 rest := rfl

theorem embedding_blob_cons (x : Nat) (v : List Nat) :
    embedding_blob (x :: v) = f32ToLeBytes x ++ embedding_blob v := by
  simp [embedding_blob]

theorem embedding_blob_length (v : List Nat) :
    (embedding_blob v).length = 4 * v.length := by
  induction v with
  | nil => rfl
  | cons x v ih =>
    rw [embedding_blob_cons, List.length_append, ih]
    have h4 : (f32ToLeBytes x).length = 4 := rfl
    rw [h4, List.length_cons]
    omega

/-- Claim C3: serializing a vector of exactly-representable elements and
deserializing the resulting byte blob restores the vector bit for bit, and the
blob has 4 bytes per element. -/
theorem embedding_blob_roundtrip (v : List Nat) (h : ∀ x ∈ v, x < 2 ^ 32) :
    deserialize_blob (embedding_blob v) = some v
    ∧ (embedding_blob v).length = 4 * v.length := by
  refine ⟨?_, embedding_blob_length v⟩
  induction v with
  | nil => rfl
  | cons x v ih =>
    have hx : x < 2 ^ 32 := h x (by simp)
    have hrest := ih (fun y hy => h y (by simp [hy]))
    rw [embedding_blob_cons]
    show deserialize_blob
      (x % 256 :: x / 256 % 256 :: x / 65536 % 256 :: x / 16777216 % 256
        :: embedding_blob v) = some (x :: v)
    unfold deserialize_blob
    rw [chunks4_cons_quad]
    rw [List.mapM_cons]
    unfold deserialize_blob at hrest
    rw [hrest]
    simp [f32ToLeBytes_roundtrip x hx]

theorem embedding_blob_roundtrip_witness :
    deserialize_blob (embedding_blob [0, 1, 3212836864, 4294967295])
      = some [0, 1, 3212836864, 4294967295]
    ∧ (embedding_blob [0, 1, 3212836864, 4294967295]).length = 4 * 4 :=
  embedding_blob_roundtrip [0, 1, 3212836864, 4294967295] (by decide)

/-- Claim C10: both enums decode their own encodings, the decoders accept any
letter-case variant (they lowercase before matching), and hence every
source and channel_type string a `Message` writes to its columns is accepted
when a `Message` is read back from a row. -/
theorem source_channel_type_roundtrip :
    (∀ s : Source, Source.from_str s.as_str = some s)
    ∧ (∀ t : ChannelType, ChannelType.from_str t.as_str = some t)
    ∧ (∀ (s : Source) (u : String), strToLower u = s.as_str → Source.from_str u = some s)
    ∧ (∀ (t : ChannelType) (u : String),
        strToLower u = t.as_str → ChannelType.from_str u = some t) := by
  refine ⟨?_, ?_, ?_, ?_⟩
  · intro s; cases s <;> decide
  · intro t; cases t <;> decide
  · intro s u hu
    cases s <;> (unfold Source.from_str; rw [hu]; rfl)
  · intro t u hu
    cases t <;> (unfold ChannelType.from_str; rw [hu]; rfl)

theorem source_channel_type_roundtrip_witness :
    Source.from_str "DiScOrD" = some Source.Discord
    ∧ ChannelType.from_str "THREAD" = some ChannelType.Thread :=
  ⟨source_channel_type_roundtrip.2.2.1 Source.Discord "DiScOrD" (by decide),
   source_channel_type_roundtrip.2.2.2 ChannelType.Thread "THREAD" (by decide)⟩

/-- Claim C1: the whole batch of `add_documents` is atomic — whenever the call
returns an error, the store is exactly the pre-call store, so no relational
row and no embedding row of the batch persists (a failure while inserting the
embeddings of record N also aborts records 1..N-1). -/
theorem add_documents_atomic (db : DB) (docs : List DocumentEmbeddings) (e : SqlErr)
    (h : (add_documents db docs).1 = .error e) :
    (add_documents db docs).2 = db := by
  cases htx : addDocumentsTx db docs with
  | ok db1 => simp [add_documents, htx] at h
  | error e1 => simp [add_documents, htx]

theorem add_documents_atomic_witness :
    (add_documents demoStore demoBatchC1).1 = .error SqlErr.dimensionMismatch
    ∧ (add_documents demoStore demoBatchC1).2 = demoStore :=
  ⟨rfl,
   add_documents_atomic demoStore demoBatchC1 SqlErr.dimensionMismatch rfl⟩

/-- Claim C2 is violated by the code: a second committed `add_documents` call
that reuses the declared doc_id `doc-r` replaces the relational row under a
fresh AUTOINCREMENT id, while the embedding row keyed to the old id stays —
an orphan ANN row persists after a committed transaction. -/
theorem add_documents_replace_orphans_ann_row :
    (add_documents dbAfterFirst [demoDocB]).1 = .ok ()
    ∧ dbAfterSecond.embeddings.any
        (fun e => dbAfterSecond.documents.all (fun d => d.rowid != e.rowid)) = true :=
  ⟨rfl, rfl⟩

/-- Claim C8 as stated is false: `SqliteStore::new` receives no embedding
model, names the ANN table `embeddings` rather than `documents_embeddings`,
and hard-codes the vector width 1536 — so for a model of any other
dimensionality (for instance 3) the stored width does not match. -/
theorem store_creation_ignores_model_dimensions :
    ¬ (∀ dims : Nat, SqliteStore.new_ddl.ann_width = dims
        ∧ SqliteStore.new_ddl.ann_table_name
          = SqliteStore.new_ddl.relational_table_name ++ "_embeddings") := by
  intro hclaim
  exact absurd (hclaim 3).1 (by decide)

/-- Claim C8 amended: store creation takes only a path; it creates the ANN
table under the fixed name `embeddings` with the fixed vector width 1536,
independent of any embedding model — the width matches a model only when that
model happens to be 1536-dimensional. -/
theorem store_creation_fixed_width :
    SqliteStore.new_ddl.ann_width = 1536
    ∧ SqliteStore.new_ddl.ann_table_name = "embeddings"
    ∧ SqliteStore.new.ann_dim = 1536 :=
  ⟨rfl, rfl, rfl⟩

/-- Claim C6 as stated is false: when one of the matched rows fails to
deserialize into the target type, `top_n` does not skip it — the error is
raised through `?` and the whole call returns an error. -/
theorem top_n_deserialize_failure_is_fatal :
    top_n dbC6 demoDecode [("doc-ok", 0), ("doc-bad", 1)]
      = .error ReadErr.deserialization := rfl

/-- Claim C6 amended: `top_n` skips a matched row whose document is missing
from the relational table and still returns the remaining rows, but any
matched row whose document fails to deserialize makes the whole call return
an error. -/
theorem top_n_skips_missing_rows {T : Type} (db : DB) (decode : String → Option T) :
    (∀ (id : String) (dist : Int) (rest : List (String × Int)),
        db.documents.find? (fun r => r.doc_id == id) = none →
        top_n db decode ((id, dist) :: rest) = top_n db decode rest)
    ∧ (∀ rows : List (String × Int),
        (∃ p ∈ rows, get_document db decode p.1 = .error .deserialization) →
        ∃ e, top_n db decode rows = .error e) := by
  constructor
  · intro id dist rest hnone
    simp [top_n, get_document, hnone]
  · intro rows hex
    induction rows with
    | nil => simp at hex
    | cons hd tl ih =>
      obtain ⟨hid, hdist⟩ := hd
      obtain ⟨p, hp, hbad⟩ := hex
      rcases List.mem_cons.mp hp with heq | hmem
      · rw [heq] at hbad
        simp at hbad
        exact ⟨.deserialization, by simp [top_n, hbad]⟩
      · obtain ⟨e, he⟩ := ih ⟨p, hmem, hbad⟩
        cases hg : get_document db decode hid with
        | error e2 => exact ⟨e2, by simp [top_n, hg]⟩
        | ok o =>
          cases o with
          | none => exact ⟨e, by simp [top_n, hg, he]⟩
          | some t => exact ⟨e, by simp [top_n, hg, he]⟩

theorem top_n_skips_missing_rows_witness :
    top_n dbC6b demoDecode [("ghost", 5), ("present", 1)]
      = top_n dbC6b demoDecode [("present", 1)]
    ∧ ∃ e, top_n dbC6 demoDecode [("doc-ok", 0), ("doc-bad", 1)] = .error e :=
  ⟨(top_n_skips_missing_rows dbC6b demoDecode).1 "ghost" 5 [("present", 1)] rfl,
   (top_n_skips_missing_rows dbC6 demoDecode).2 [("doc-ok", 0), ("doc-bad", 1)]
     ⟨("doc-bad", 1), by simp, rfl⟩⟩

theorem countP_map_invariant {α : Type} (p : α → Bool) (g : α → α)
    (hg : ∀ a, p (g a) = p a) (l : List α) : (l.map g).countP p = l.countP p := by
  induction l with
  | nil => rfl
  | cons a l ih => simp [List.countP_cons, hg, ih]

/-- Claim C7: when the embedding-model call fails, `create_message` and the
knowledge-base `add_documents` return the model error and the returned state
is exactly the pre-call state — accounts, channels, messages, documents and
embeddings tables all unchanged. -/
theorem model_error_no_mutation (kb : KB) (msg : Message) (e : String) (now : Nat) :
    create_message kb msg (.error e) now = (.error (.modelError e), kb)
    ∧ kb_add_documents kb (.error e) = (.error (.modelError e), kb) :=
  ⟨rfl, rfl⟩

/-- Claim C9: `create_user` upserts keyed by `source_id` — a second call with
the same `source_id` returns the numeric id of the first call, leaves exactly
one accounts row for that `source_id`, and only refreshes `updated_at` of
that row. -/
theorem create_user_upsert (kb : KB) (n1 s1 n2 s2 sid : String) (t1 t2 : Nat)
    (hfresh : ∀ r ∈ kb.accounts, r.source_id ≠ sid) :
    (create_user (create_user kb n1 s1 sid t1).2 n2 s2 sid t2).1
      = (create_user kb n1 s1 sid t1).1
    ∧ (create_user (create_user kb n1 s1 sid t1).2 n2 s2 sid t2).2.accounts.countP
        (fun r => r.source_id == sid) = 1
    ∧ (create_user (create_user kb n1 s1 sid t1).2 n2 s2 sid t2).2.accounts
      = (create_user kb n1 s1 sid t1).2.accounts.map
          (fun r => if r.source_id == sid then { r with updated_at := t2 } else r) := by
  have hnone : kb.accounts.find? (fun r => r.source_id == sid) = none := by
    rw [List.find?_eq_none]
    intro a ha
    simp [hfresh a ha]
  have h1 : create_user kb n1 s1 sid t1
      = (kb.next_account_id,
         { kb with
            accounts := kb.accounts ++ [⟨kb.next_account_id, n1, sid, s1, t1, t1⟩],
            next_account_id := kb.next_account_id + 1 }) := by
    simp [create_user, hnone]
  rw [h1]
  have hfind2 : (kb.accounts
        ++ [(⟨kb.next_account_id, n1, sid, s1, t1, t1⟩ : AccountRow)]).find?
        (fun r => r.source_id == sid)
      = some ⟨kb.next_account_id, n1, sid, s1, t1, t1⟩ := by
    rw [List.find?_append, hnone]
    simp [List.find?]
  refine ⟨?_, ?_, ?_⟩
  · simp [create_user, hfind2]
  · simp only [create_user, hfind2]
    rw [countP_map_invariant]
    · rw [List.countP_append]
      have h0 : kb.accounts.countP (fun r => r.source_id == sid) = 0 := by
        rw [List.countP_eq_zero]
        intro a ha
        simp [hfresh a ha]
      simp [h0]
    · intro a
      by_cases h : a.source_id = sid <;> simp [h]
  · simp [create_user, hfind2]

theorem create_user_upsert_witness :
    (create_user (create_user kbEmpty "alice" "discord" "src-1" 10).2
        "alice-renamed" "discord" "src-1" 20).1
      = (create_user kbEmpty "alice" "discord" "src-1" 10).1
    ∧ (create_user (create_user kbEmpty "alice" "discord" "src-1" 10).2
        "alice-renamed" "discord" "src-1" 20).2.accounts.countP
        (fun r => r.source_id == "src-1") = 1
    ∧ (create_user (create_user kbEmpty "alice" "discord" "src-1" 10).2
        "alice-renamed" "discord" "src-1" 20).2.accounts
      = (create_user kbEmpty "alice" "discord" "src-1" 10).2.accounts.map
          (fun r => if r.source_id == "src-1" then { r with updated_at := 20 } else r) :=
  create_user_upsert kbEmpty "alice" "discord" "alice-renamed" "discord" "src-1" 10 20
    (by simp [kbEmpty])

/-- Claim C5: `channel_messages` returns at most `limit` pairs, exactly
`limit` whenever the channel holds at least `limit` messages, in descending
creation-time order; concretely, with 15 messages of strictly increasing
timestamps in `chan-x`, limit 10 yields exactly 10 entries whose first entry
is the most recently inserted message. -/
theorem channel_messages_spec (kb : KB) (cid : String) (limit : Nat) :
    (channel_messages kb cid limit).length ≤ limit
    ∧ (limit ≤ (kb.messages.filter (fun r => r.channel_id == cid)).length →
        (channel_messages kb cid limit).length = limit)
    ∧ List.Sorted recentFirst
        ((List.insertionSort recentFirst
            (kb.messages.filter (fun r => r.channel_id == cid))).take limit)
    ∧ (channel_messages demo15 "chan-x" 10).length = 10
    ∧ (channel_messages demo15 "chan-x" 10).head? = some ("user-15", "message 15") := by
  have hlen := (List.perm_insertionSort recentFirst
      (kb.messages.filter (fun r => r.channel_id == cid))).length_eq
  have hmin : (channel_messages kb cid limit).length
      = min limit (kb.messages.filter (fun r => r.channel_id == cid)).length := by
    simp [channel_messages, List.length_take, hlen]
  refine ⟨?_, ?_, ?_, by decide, by decide⟩
  · rw [hmin]
    exact Nat.min_le_left _ _
  · intro hle
    rw [hmin]
    exact Nat.min_eq_left hle
  · exact List.Pairwise.sublist (List.take_sublist _ _)
      (List.sorted_insertionSort recentFirst _)

theorem channel_messages_spec_witness :
    (channel_messages demo15 "chan-x" 10).length = 10 :=
  (channel_messages_spec demo15 "chan-x" 10).2.1 (by decide)

theorem upsert_channel_fresh (kb : KB) (cid ctype src : String) (now : Nat)
    (h : ∀ c ∈ kb.channels, c.channel_id ≠ cid) :
    upsert_channel kb cid ctype src now
      = { kb with
          channels := kb.channels
            ++ [⟨kb.next_channel_id, cid, ctype, src, none, now, now⟩],
          next_channel_id := kb.next_channel_id + 1 } := by
  have hany : kb.channels.any (fun c => c.channel_id == cid) = false := by
    rw [List.any_eq_false]
    intro c hc
    simp [h c hc]
  simp [upsert_channel, hany]

theorem upsert_channel_existing (kb : KB) (cid ctype src : String) (now : Nat)
    (h : kb.channels.any (fun c => c.channel_id == cid) = true) :
    upsert_channel kb cid ctype src now
      = { kb with channels := kb.channels.map (fun c =>
            if c.channel_id == cid then { c with updated_at := now } else c) } := by
  simp [upsert_channel, h]

theorem insert_message_embeddings_ok (kb : KB) (rid : Nat) (embs : List (List Nat))
    (h : ∀ v ∈ embs, v.length = kb.ann_dim) :
    insert_message_embeddings kb rid embs
      = .ok { kb with message_embeddings :=
          kb.message_embeddings ++ embs.map (fun v => ⟨rid, embedding_blob v⟩) } := by
  induction embs generalizing kb with
  | nil => simp [insert_message_embeddings]
  | cons v rest ih =>
    have hv : ¬ (embedding_blob v).length ≠ 4 * kb.ann_dim := by
      rw [embedding_blob_length, h v (by simp)]
      omega
    rw [insert_message_embeddings, if_neg hv, ih]
    · simp [List.append_assoc]
    · exact fun w hw => h w (List.mem_cons_of_mem _ hw)

theorem add_rows_with_txn_fresh (kb : KB) (msg : Message) (embs : List (List Nat))
    (hmsg : ∀ r ∈ kb.messages, r.id ≠ msg.id)
    (hw : ∀ v ∈ embs, v.length = kb.ann_dim) :
    add_rows_with_txn kb msg embs
      = .ok (kb.next_message_rowid,
         { kb with
            messages := kb.messages ++ [msgRow kb.next_message_rowid msg],
            message_embeddings := kb.message_embeddings
              ++ embs.map (fun v => ⟨kb.next_message_rowid, embedding_blob v⟩),
            next_message_rowid := kb.next_message_rowid + 1 }) := by
  have hkeep : kb.messages.filter (fun r => r.id != msg.id) = kb.messages := by
    rw [List.filter_eq_self]
    intro r hr
    simp [hmsg r hr]
  have hgone : kb.messages.filter (fun r => r.id == msg.id) = [] := by
    rw [List.filter_eq_nil_iff]
    intro r hr
    simp [hmsg r hr]
  simp only [add_rows_with_txn, hkeep, hgone, List.map_nil, List.contains_nil,
    Bool.not_false, List.filter_true]
  rw [insert_message_embeddings_ok]
  · exact fun w hw2 => hw w hw2

theorem create_message_fresh (kb : KB) (msg : Message) (embs : List (List Nat))
    (now : Nat)
    (hch : ∀ c ∈ kb.channels, c.channel_id ≠ msg.channel_id)
    (hmsg : ∀ r ∈ kb.messages, r.id ≠ msg.id)
    (hw : ∀ v ∈ embs, v.length = kb.ann_dim) :
    create_message kb msg (.ok embs) now
      = (.ok kb.next_message_rowid,
         { kb with
            channels := kb.channels ++ [⟨kb.next_channel_id, msg.channel_id,
              msg.channel_type.as_str, msg.source.as_str, none, now, now⟩],
            next_channel_id := kb.next_channel_id + 1,
            messages := kb.messages ++ [msgRow kb.next_message_rowid msg],
            message_embeddings := kb.message_embeddings
              ++ embs.map (fun v => ⟨kb.next_message_rowid, embedding_blob v⟩),
            next_message_rowid := kb.next_message_rowid + 1 }) := by
  simp only [create_message,
    upsert_channel_fresh kb msg.channel_id msg.channel_type.as_str msg.source.as_str now hch]
  rw [add_rows_with_txn_fresh]
  · exact fun r hr => hmsg r hr
  · exact fun v hv => hw v hv

theorem create_message_existing_channel (kb : KB) (msg : Message)
    (embs : List (List Nat)) (now : Nat)
    (hch : kb.channels.any (fun c => c.channel_id == msg.channel_id) = true)
    (hmsg : ∀ r ∈ kb.messages, r.id ≠ msg.id)
    (hw : ∀ v ∈ embs, v.length = kb.ann_dim) :
    create_message kb msg (.ok embs) now
      = (.ok kb.next_message_rowid,
         { kb with
            channels := kb.channels.map (fun c =>
              if c.channel_id == msg.channel_id then { c with updated_at := now } else c),
            messages := kb.messages ++ [msgRow kb.next_message_rowid msg],
            message_embeddings := kb.message_embeddings
              ++ embs.map (fun v => ⟨kb.next_message_rowid, embedding_blob v⟩),
            next_message_rowid := kb.next_message_rowid + 1 }) := by
  simp only [create_message,
    upsert_channel_existing kb msg.channel_id msg.channel_type.as_str msg.source.as_str now hch]
  rw [add_rows_with_txn_fresh]
  · exact fun r hr => hmsg r hr
  · exact fun v hv => hw v hv

/-- Claim C4: two `create_message` calls with distinct message ids but the
same channel_id leave exactly one channels row for that channel_id — the
upsert inserts the channel on first sight and only refreshes `updated_at` on
conflict — and two rows in the messages table. -/
theorem create_message_channel_upsert (kb : KB) (m1 m2 : Message)
    (e1 e2 : List (List Nat)) (t1 t2 : Nat)
    (hid : m1.id ≠ m2.id)
    (hcid : m2.channel_id = m1.channel_id)
    (hch : ∀ c ∈ kb.channels, c.channel_id ≠ m1.channel_id)
    (hm1 : ∀ r ∈ kb.messages, r.id ≠ m1.id)
    (hm2 : ∀ r ∈ kb.messages, r.id ≠ m2.id)
    (hw1 : ∀ v ∈ e1, v.length = kb.ann_dim)
    (hw2 : ∀ v ∈ e2, v.length = kb.ann_dim) :
    (create_message (create_message kb m1 (.ok e1) t1).2 m2 (.ok e2) t2).1
      = .ok (kb.next_message_rowid + 1)
    ∧ (create_message (create_message kb m1 (.ok e1) t1).2 m2 (.ok e2) t2).2.channels.countP
        (fun c => c.channel_id == m1.channel_id) = 1
    ∧ (create_message (create_message kb m1 (.ok e1) t1).2 m2 (.ok e2) t2).2.messages.length
        = kb.messages.length + 2 := by
  have h1 := create_message_fresh kb m1 e1 t1 hch hm1 hw1
  simp only [h1]
  have hany : (kb.channels ++ [(⟨kb.next_channel_id, m1.channel_id,
      m1.channel_type.as_str, m1.source.as_str, none, t1, t1⟩ : ChannelRow)]).any
      (fun c => c.channel_id == m2.channel_id) = true := by
    rw [List.any_eq_true]
    exact ⟨⟨kb.next_channel_id, m1.channel_id, m1.channel_type.as_str,
      m1.source.as_str, none, t1, t1⟩,
      List.mem_append_right _ (by simp), by simp [hcid]⟩
  have hmsg2 : ∀ r ∈ kb.messages ++ [msgRow kb.next_message_rowid m1], r.id ≠ m2.id := by
    intro r hr
    rcases List.mem_append.mp hr with hr1 | hr1
    · exact hm2 r hr1
    · have hr2 : r = msgRow kb.next_message_rowid m1 := by simpa using hr1
      rw [hr2]
      exact hid
  rw [create_message_existing_channel]
  · refine ⟨rfl, ?_, ?_⟩
    · show ((kb.channels ++ [(⟨kb.next_channel_id, m1.channel_id,
          m1.channel_type.as_str, m1.source.as_str, none, t1, t1⟩ : ChannelRow)]).map
            (fun c => if c.channel_id == m2.channel_id
              then { c with updated_at := t2 } else c)).countP
          (fun c => c.channel_id == m1.channel_id) = 1
      rw [countP_map_invariant]
      · rw [List.countP_append]
        have h0 : kb.channels.countP (fun c => c.channel_id == m1.channel_id) = 0 := by
          rw [List.countP_eq_zero]
          intro c hc
          simp [hch c hc]
        simp [h0]
      · intro c
        by_cases hcc : c.channel_id = m2.channel_id <;> simp [hcc]
    · show (kb.messages ++ [msgRow kb.next_message_rowid m1]
          ++ [msgRow (kb.next_message_rowid + 1) m2]).length = kb.messages.length + 2
      simp only [List.length_append, List.length_cons, List.length_nil]
  · exact hany
  · exact hmsg2
  · exact fun v hv => hw2 v hv

theorem create_message_channel_upsert_witness :
    (create_message (create_message kbEmpty demoMessage1 (.ok [[1, 2]]) 1).2
        demoMessage2 (.ok [[3, 4]]) 2).1 = .ok (kbEmpty.next_message_rowid + 1)
    ∧ (create_message (create_message kbEmpty demoMessage1 (.ok [[1, 2]]) 1).2
        demoMessage2 (.ok [[3, 4]]) 2).2.channels.countP
        (fun c => c.channel_id == demoMessage1.channel_id) = 1
    ∧ (create_message (create_message kbEmpty demoMessage1 (.ok [[1, 2]]) 1).2
        demoMessage2 (.ok [[3, 4]]) 2).2.messages.length
        = kbEmpty.messages.length + 2 :=
  create_message_channel_upsert kbEmpty demoMessage1 demoMessage2 [[1, 2]] [[3, 4]] 1 2
    (by decide) (by decide) (by simp [kbEmpty]) (by simp [kbEmpty]) (by simp [kbEmpty])
    (by decide) (by decide)
